import Mathlib

/-
Verification development for the configuration core of a Geode CLI fork
(`src/util/config.rs`). The Rust data model and the operations on it are
shallowly embedded below: `PathBuf` and executable names become `String`,
the serde-flattened `HashMap<String, Value>` bags become ordered association
lists `List (String × Json)`, `RefCell` interior mutability becomes explicit
state passing, and the process-terminating macros (`fatal!`, `expect`) become
explicit outcome constructors. Filesystem and environment state consulted by
`try_sdk_path` is abstracted as boolean oracles passed in as arguments.
-/

namespace Geode

/-- A JSON value, as used by the config file format (`serde_json::Value`). -/
inductive Json where
  | null
  | bool (b : Bool)
  | num (n : Int)
  | str (s : String)
  | arr (xs : List Json)
  | obj (fields : List (String × Json))

/-- `Profile` from config.rs: a named pointer to a GD installation.
`other` is the serde-flattened bag of unrecognized fields. -/
structure Profile where
  name : String
  gd_path : String
  other : List (String × Json)

/-- `Config` from config.rs: the root persisted settings document. -/
structure Config where
  current_profile : Option String
  profiles : List Profile
  default_developer : Option String
  sdk_nightly : Bool
  other : List (String × Json)

/-- `OldConfigInstallation` from config.rs (legacy schema). -/
structure OldConfigInstallation where
  path : String
  executable : String

/-- `OldConfig` from config.rs (legacy schema). -/
structure OldConfig where
  default_installation : Nat
  working_installation : Option Nat
  installations : Option (List OldConfigInstallation)
  default_developer : Option String

/-- Rust `s.strip_suffix(".exe").unwrap_or(&s)`: remove one trailing
`".exe"` if present, otherwise leave the string unchanged. -/
def stripExeSuffix (s : String) : String :=
  if List.isSuffixOf ".exe".data s.data then
    String.mk (s.data.take (s.data.length - 4))
  else s

/-- `OldConfig::migrate` from config.rs: convert a legacy document into the
current schema. -/
def OldConfig.migrate (o : OldConfig) : Config :=
  let profiles :=
    (o.installations.getD []).map fun inst =>
      { name := stripExeSuffix inst.executable
        gd_path := inst.path
        other := [] }
  { current_profile :=
      (profiles.get? (o.working_installation.getD o.default_installation)).map
        fun p => p.name
    profiles := profiles
    default_developer := o.default_developer
    sdk_nightly := false
    other := [] }

/-- `Config::get_profile` from config.rs: `None` argument yields `none`,
otherwise a linear `find` for the first profile with exactly that name. -/
def Config.get_profile (c : Config) (name : Option String) : Option Profile :=
  match name with
  | some n => c.profiles.find? fun p => p.name == n
  | none => none

/-- `Config::get_current_profile` from config.rs: looks up `current_profile`
via `get_profile`; the Rust `.expect("No current profile found!")` panic is
modelled by the `none` result. -/
def Config.get_current_profile (c : Config) : Option Profile :=
  c.get_profile c.current_profile

/-- The post-load repair step at the end of `Config::new` (config.rs lines
221-228): an empty profile list only warns; otherwise an unresolved
`current_profile` is reset to the name of the first profile. -/
def postLoadRepair (c : Config) : Config :=
  match c.profiles with
  | [] => c
  | p :: _ =>
    if (c.get_profile c.current_profile).isNone then
      { c with current_profile := some p.name }
    else c

/-- Outcome of `Config::rename_profile`: `paniced` models the
`.expect(...)` process abort on a missing source profile, `failed` the
user-facing `fail!` report, `renamed` the successful `done!` branch. -/
inductive RenameOutcome where
  | paniced
  | failed
  | renamed
deriving DecidableEq

/-- In-place mutation of the first profile named `old` (the profile that
`get_profile` returns a `RefCell` of) to be named `new`. -/
def renameFirst : List Profile → String → String → List Profile
  | [], _, _ => []
  | p :: ps, old, new =>
    if p.name == old then { p with name := new } :: ps
    else p :: renameFirst ps old new

/-- `Config::rename_profile` from config.rs: abort if `old` is absent, report
failure (state untouched) if `new` is already taken, otherwise rename the
found profile in place. -/
def Config.rename_profile (c : Config) (old new : String) :
    RenameOutcome × Config :=
  match c.get_profile (some old) with
  | none => (.paniced, c)
  | some _ =>
    if (c.get_profile (some new)).isSome then (.failed, c)
    else (.renamed, { c with profiles := renameFirst c.profiles old new })

/-- The error message of `Config::try_sdk_path` for an unset `GEODE_SDK`. -/
def sdkNotSetMsg : String :=
  "Unable to find Geode SDK (GEODE_SDK isn\x27t set). Please install it using `geode sdk install` or use `geode sdk set-path` to set it to an existing clone. If you just installed the SDK using `geode sdk install`, please restart your terminal / computer to apply changes."

/-- The error message of `Config::try_sdk_path` when `GEODE_SDK` is not a
directory. -/
def sdkNotDirMsg : String :=
  "Internal Error: GEODE_SDK doesn\x27t point to a directory. Fix it manually or reinstall using `geode sdk install --reinstall`"

/-- The error message of `Config::try_sdk_path` when `GEODE_SDK/VERSION` is
missing. -/
def sdkNoVersionMsg : String :=
  "Internal Error: GEODE_SDK/VERSION not found. Please reinstall the Geode SDK using `geode sdk install --reinstall`"

/-- `PathBuf::join` on Unix-style paths, as used by `try_sdk_path`. -/
def joinPath (a b : String) : String := a ++ "/" ++ b

/-- The filesystem facts `try_sdk_path` consults: whether a path is an
existing directory and whether a path exists at all. -/
structure FsState where
  isDir : String → Bool
  pathExists : String → Bool

/-- `Config::try_sdk_path` from config.rs; `envGeodeSdk` is the value of the
`GEODE_SDK` environment variable (`none` when unset). Returns the resolved
path or an error message; never terminates the process. -/
def try_sdk_path (envGeodeSdk : Option String) (fs : FsState) :
    Except String String :=
  match envGeodeSdk with
  | none => .error sdkNotSetMsg
  | some sdkVar =>
    if !(fs.isDir sdkVar) then .error sdkNotDirMsg
    else if !(fs.pathExists (joinPath sdkVar "VERSION")) then
      .error sdkNoVersionMsg
    else .ok sdkVar

/-- `true` when `pat` occurs as a contiguous substring of `s`. -/
def containsStr (s pat : String) : Bool :=
  s.data.tails.any fun t => pat.data.isPrefixOf t

/-- serde encoding of an `Option<String>` field: `None` is `null`. -/
def optStrJson : Option String → Json
  | none => Json.null
  | some s => Json.str s

/-- The recognized (non-flattened) field names of `Profile`, in serde
kebab-case form. -/
def profileKeys : List String := ["name", "gd-path"]

/-- The recognized (non-flattened) field names of `Config`, in serde
kebab-case form. -/
def configKeys : List String :=
  ["current-profile", "profiles", "default-developer", "sdk-nightly"]

/-- serde serialization of `Profile` (kebab-case rename, `other`
flattened into the same object). -/
def serializeProfile (p : Profile) : Json :=
  Json.obj ([("name", Json.str p.name), ("gd-path", Json.str p.gd_path)]
    ++ p.other)

/-- serde serialization of `Config`, as written by `Config::save` via
`serde_json::to_string` (kebab-case rename, `other` flattened). -/
def serializeConfig (c : Config) : Json :=
  Json.obj ([("current-profile", optStrJson c.current_profile),
      ("profiles", Json.arr (c.profiles.map serializeProfile)),
      ("default-developer", optStrJson c.default_developer),
      ("sdk-nightly", Json.bool c.sdk_nightly)]
    ++ c.other)

/-- First-occurrence lookup of a field in the field list of a JSON object. -/
def lookupField (kvs : List (String × Json)) (k : String) : Option Json :=
  (kvs.find? fun kv => kv.1 == k).map fun kv => kv.2

/-- Decode a JSON value as a required string field. -/
def asStr : Json → Option String
  | Json.str s => some s
  | _ => none

/-- Decode an optional string field: missing or `null` is `none`, a string
is `some`, anything else is a deserialization error. -/
def asOptStr : Option Json → Option (Option String)
  | none => some none
  | some Json.null => some none
  | some (Json.str s) => some (some s)
  | some _ => none

/-- serde deserialization of `Profile`: `name` and `gd-path` are required
strings, every other field is collected verbatim into the flattened bag. -/
def deserializeProfile : Json → Option Profile
  | Json.obj kvs =>
    match (lookupField kvs "name").bind asStr with
    | none => none
    | some name =>
      match (lookupField kvs "gd-path").bind asStr with
      | none => none
      | some gd =>
        some { name := name, gd_path := gd,
               other := kvs.filter fun kv => !(profileKeys.contains kv.1) }
  | _ => none

/-- serde deserialization of the `profiles` array: element by element, in
order, failing as soon as one element fails. -/
def deserializeProfiles : List Json → Option (List Profile)
  | [] => some []
  | j :: js =>
    match deserializeProfile j with
    | none => none
    | some p =>
      match deserializeProfiles js with
      | none => none
      | some ps => some (p :: ps)

/-- serde deserialization of `Config`: `profiles` and `sdk-nightly` are
required, the two option fields default to `none` when missing, and every
unrecognized top-level field is collected verbatim into the flattened bag. -/
def deserializeConfig : Json → Option Config
  | Json.obj kvs =>
    match asOptStr (lookupField kvs "current-profile") with
    | none => none
    | some cur =>
      match lookupField kvs "profiles" with
      | some (Json.arr xs) =>
        match deserializeProfiles xs with
        | none => none
        | some profs =>
          match asOptStr (lookupField kvs "default-developer") with
          | none => none
          | some dd =>
            match lookupField kvs "sdk-nightly" with
            | some (Json.bool b) =>
              some { current_profile := cur, profiles := profs,
                     default_developer := dd, sdk_nightly := b,
                     other := kvs.filter fun kv => !(configKeys.contains kv.1) }
            | _ => none
      | _ => none
  | _ => none

/-- The field list of a JSON object (`[]` for non-objects). -/
def objFields : Json → List (String × Json)
  | Json.obj kvs => kvs
  | _ => []

/-- A profile with an empty flattened bag, as `Profile::new` builds it. -/
def exProfile (n p : String) : Profile :=
  { name := n, gd_path := p, other := [] }

/-- Concrete config evaluating the rename-to-fresh-name theorem. -/
def exConfig4 : Config :=
  { current_profile := some "alpha"
    profiles := [exProfile "alpha" "/gd", exProfile "beta" "/gd2"]
    default_developer := none
    sdk_nightly := false
    other := [] }

/-- Concrete config evaluating the rename-to-taken-name theorem. -/
def exConfig5 : Config :=
  { current_profile := some "beta"
    profiles := [exProfile "alpha" "/gd", exProfile "beta" "/gd2"]
    default_developer := some "dev"
    sdk_nightly := true
    other := [] }

/-- Concrete config evaluating the rename-to-own-name theorem. -/
def exConfig10 : Config :=
  { current_profile := none
    profiles := [exProfile "solo" "/gd"]
    default_developer := none
    sdk_nightly := false
    other := [] }

/-- `p` is the first profile of `l` named `n`: `l` splits as
`l₁ ++ p :: l₂` with no profile of `l₁` named `n`. -/
def FirstNamed (l : List Profile) (n : String) (p : Profile) : Prop :=
  ∃ l₁ l₂, l = l₁ ++ p :: l₂ ∧ p.name = n ∧ ∀ q ∈ l₁, q.name ≠ n

/-- Every profile of `p.other` avoids the recognized profile field names
(always true of profiles the deserializer produces). -/
def profileWF (p : Profile) : Bool :=
  p.other.all fun kv => !(profileKeys.contains kv.1)

/-- The flattened bags of `c` avoid the recognized field names (always true
of configs the deserializer produces). -/
def configWF (c : Config) : Bool :=
  (c.other.all fun kv => !(configKeys.contains kv.1)) && c.profiles.all profileWF

theorem find?_name_eq_some_iff {l : List Profile} {n : String} {p : Profile} :
    (l.find? fun q => q.name == n) = some p ↔ FirstNamed l n p := by
  induction l with
  | nil => simp [FirstNamed]
  | cons a l ih =>
    by_cases h : a.name = n
    · have hb : (a.name == n) = true := beq_iff_eq.mpr h
      rw [List.find?_cons, hb]
      constructor
      · intro he
        have ha : a = p := by exact Option.some.inj he
        subst ha
        exact ⟨[], l, rfl, h, by simp⟩
      · rintro ⟨l₁, l₂, heq, hpn, hfresh⟩
        cases l₁ with
        | nil =>
          have : a = p := by simpa using congrArg (fun t => t.head?) heq
          rw [this]
        | cons b l₁ =>
          have hab : a = b := by simpa using congrArg (fun t => t.head?) heq
          have : b.name ≠ n := hfresh b (by simp)
          exact absurd (hab ▸ h) this
    · have hb : (a.name == n) = false := by
        exact beq_eq_false_iff_ne.mpr h
      rw [List.find?_cons, hb, ih]
      constructor
      · rintro ⟨l₁, l₂, heq, hpn, hfresh⟩
        refine ⟨a :: l₁, l₂, by rw [heq]; rfl, hpn, ?_⟩
        intro q hq
        rcases List.mem_cons.mp hq with hqa | hql
        · rw [hqa]; exact h
        · exact hfresh q hql
      · rintro ⟨l₁, l₂, heq, hpn, hfresh⟩
        cases l₁ with
        | nil =>
          have hap : a = p := by simpa using congrArg (fun t => t.head?) heq
          have han : a.name = n := by rw [hap]; exact hpn
          exact absurd han h
        | cons b l₁ =>
          have htl : l = l₁ ++ p :: l₂ := by
            simpa using congrArg (fun t => t.tail) heq
          refine ⟨l₁, l₂, htl, hpn, fun q hq => hfresh q (List.mem_cons_of_mem b hq)⟩

theorem find?_name_eq_none_iff {l : List Profile} {n : String} :
    (l.find? fun q => q.name == n) = none ↔ ∀ q ∈ l, q.name ≠ n := by
  rw [List.find?_eq_none]
  constructor
  · intro h q hq
    intro he
    exact h q hq (by exact beq_iff_eq.mpr he)
  · intro h q hq hb
    exact h q hq (by exact beq_iff_eq.mp hb)

/-- C7: `get_profile` with an absent argument returns `none`; with
`some name` it linearly searches the profile collection in order and
returns the first profile whose name is exactly `name`, or `none` when no
profile has that name; both `none` outcomes are ordinary values, not
errors. -/
theorem get_profile_spec (c : Config) (n : String) :
    c.get_profile none = none ∧
    (∀ p : Profile,
      c.get_profile (some n) = some p ↔ FirstNamed c.profiles n p) ∧
    (c.get_profile (some n) = none ↔ ∀ p ∈ c.profiles, p.name ≠ n) := by
  refine ⟨rfl, fun p => ?_, ?_⟩
  · exact find?_name_eq_some_iff
  · exact find?_name_eq_none_iff

/-- C9: `get_current_profile` hits its process-terminating
`expect("No current profile found!")` (modelled as `none`) exactly when
`current_profile` does not resolve via `get_profile` — in particular when
it is unset or when the profile list is empty — and under the precondition
that `current_profile` names a profile present in the collection it
returns that (first matching) profile, so the panic branch is
unreachable. -/
theorem get_current_profile_spec (c : Config) :
    (c.current_profile = none → c.get_current_profile = none) ∧
    (c.profiles = [] → c.get_current_profile = none) ∧
    (∀ n, c.current_profile = some n → (∀ p ∈ c.profiles, p.name ≠ n) →
      c.get_current_profile = none) ∧
    (∀ n p, c.current_profile = some n → FirstNamed c.profiles n p →
      c.get_current_profile = some p) := by
  refine ⟨?_, ?_, ?_, ?_⟩
  · intro h
    simp only [Config.get_current_profile, h]
    rfl
  · intro h
    cases hc : c.current_profile with
    | none =>
      simp only [Config.get_current_profile, hc]
      rfl
    | some n =>
      simp only [Config.get_current_profile, hc, Config.get_profile]
      rw [find?_name_eq_none_iff]
      intro q hq
      rw [h] at hq
      exact absurd hq (List.not_mem_nil q)
  · intro n hc hnone
    simp only [Config.get_current_profile, hc, Config.get_profile]
    exact find?_name_eq_none_iff.mpr hnone
  · intro n p hc hfirst
    simp only [Config.get_current_profile, hc, Config.get_profile]
    exact find?_name_eq_some_iff.mpr hfirst

/-- C1: the post-load repair step leaves an empty profile list alone;
with a non-empty list it resets `current_profile` to the name of the
first profile exactly when the current name (including the unset case) matches no
profile, and leaves the config unchanged when the current name already
names an existing profile. -/
theorem postLoadRepair_spec (c : Config) :
    (c.profiles = [] → postLoadRepair c = c) ∧
    (∀ p l, c.profiles = p :: l →
      ((∀ q ∈ c.profiles, some q.name ≠ c.current_profile) →
        postLoadRepair c = { c with current_profile := some p.name }) ∧
      ((∃ q ∈ c.profiles, some q.name = c.current_profile) →
        postLoadRepair c = c)) := by
  constructor
  · intro h
    rw [postLoadRepair.eq_def, h]
  · intro p l hp
    constructor
    · intro hmiss
      have hnone : (c.get_profile c.current_profile).isNone = true := by
        cases hc : c.current_profile with
        | none => rfl
        | some n =>
          simp only [Config.get_profile]
          rw [Option.isNone_iff_eq_none, find?_name_eq_none_iff]
          intro q hq he
          exact hmiss q hq (by rw [he, hc])
      rw [postLoadRepair.eq_def, hp]
      simp [hnone]
    · rintro ⟨q, hq, he⟩
      have hsome : (c.get_profile c.current_profile).isNone = false := by
        cases hc : c.current_profile with
        | none => rw [hc] at he; exact absurd he (by simp)
        | some n =>
          rw [hc] at he
          have hn : q.name = n := by exact Option.some.inj he
          have hfind : (List.find? (fun r => r.name == n) c.profiles) ≠ none := by
            intro hfind
            exact (find?_name_eq_none_iff.mp hfind) q hq hn
          simp only [Config.get_profile]
          cases hval : List.find? (fun r => r.name == n) c.profiles with
          | none => exact absurd hval hfind
          | some r => rfl
      rw [postLoadRepair.eq_def, hp]
      simp [hsome]

theorem get_profile_ne_none_of_named {c : Config} {n : String}
    (h : ∃ p ∈ c.profiles, p.name = n) : c.get_profile (some n) ≠ none := by
  obtain ⟨p, hmem, hname⟩ := h
  intro hnone
  have := find?_name_eq_none_iff.mp (by simpa [Config.get_profile] using hnone)
  exact this p hmem hname

theorem rename_profile_taken_helper (c : Config) (old newName : String)
    (hOld : c.get_profile (some old) ≠ none)
    (hNew : c.get_profile (some newName) ≠ none) :
    c.rename_profile old newName = (RenameOutcome.failed, c) := by
  obtain ⟨p₀, hp₀⟩ := Option.ne_none_iff_exists'.mp hOld
  obtain ⟨p₁, hp₁⟩ := Option.ne_none_iff_exists'.mp hNew
  rw [Config.rename_profile.eq_def, hp₀, hp₁]
  rfl

theorem renameFirst_split (l₁ l₂ : List Profile) (p : Profile)
    (old newName : String) (hp : p.name = old)
    (hfresh : ∀ q ∈ l₁, q.name ≠ old) :
    renameFirst (l₁ ++ p :: l₂) old newName =
      l₁ ++ { p with name := newName } :: l₂ := by
  induction l₁ with
  | nil => simp [renameFirst, hp]
  | cons a l₁ ih =>
    have ha : (a.name == old) = false :=
      beq_eq_false_iff_ne.mpr (hfresh a (by simp))
    have ih' := ih fun q hq => hfresh q (List.mem_cons_of_mem a hq)
    simp only [List.cons_append, renameFirst, ha, Bool.false_eq_true, if_false]
    exact congrArg (fun t => a :: t) ih'

/-- C4: renaming an existing profile to a fresh name succeeds, changes
exactly the `name` field of that (first-matching) profile to the new name,
keeps every other field of every profile and the list length and order,
and leaves `current_profile` untouched — even when the renamed profile was
the current one. -/
theorem rename_profile_fresh_spec (c : Config) (old newName : String)
    (hOld : ∃ p ∈ c.profiles, p.name = old)
    (hNew : ∀ p ∈ c.profiles, p.name ≠ newName) :
    ∃ l₁ p l₂, c.profiles = l₁ ++ p :: l₂ ∧ p.name = old ∧
      (∀ q ∈ l₁, q.name ≠ old) ∧
      c.rename_profile old newName =
        (RenameOutcome.renamed,
          { c with profiles := l₁ ++ { p with name := newName } :: l₂ }) := by
  have hne := get_profile_ne_none_of_named hOld
  obtain ⟨pf, hpf⟩ := Option.ne_none_iff_exists'.mp hne
  obtain ⟨l₁, l₂, heq, hpn, hfresh⟩ :=
    find?_name_eq_some_iff.mp (by simpa [Config.get_profile] using hpf)
  have hnewnone : c.get_profile (some newName) = none := by
    simp only [Config.get_profile]
    exact find?_name_eq_none_iff.mpr hNew
  refine ⟨l₁, pf, l₂, heq, hpn, hfresh, ?_⟩
  rw [Config.rename_profile.eq_def, hpf, hnewnone]
  simp only [Option.isSome_none, Bool.false_eq_true, if_false]
  rw [heq, renameFirst_split l₁ l₂ pf old newName hpn hfresh]

/-- C4 witness: renaming `"alpha"` to the fresh name `"gamma"` in a
two-profile config whose current profile is `"alpha"`. -/
theorem rename_profile_fresh_witness :
    ∃ l₁ p l₂, exConfig4.profiles = l₁ ++ p :: l₂ ∧ p.name = "alpha" ∧
      (∀ q ∈ l₁, q.name ≠ "alpha") ∧
      exConfig4.rename_profile "alpha" "gamma" =
        (RenameOutcome.renamed,
          { exConfig4 with
              profiles := l₁ ++ { p with name := "gamma" } :: l₂ }) :=
  rename_profile_fresh_spec exConfig4 "alpha" "gamma"
    ⟨exProfile "alpha" "/gd", by simp [exConfig4], rfl⟩
    (by
      intro p hp
      have hp' : p = exProfile "alpha" "/gd" ∨ p = exProfile "beta" "/gd2" := by
        simpa [exConfig4] using hp
      rcases hp' with rfl | rfl
      · decide
      · decide)

/-- C5: renaming an existing profile to a name some profile already bears
reports the recoverable "name already taken" failure and leaves the whole
config — profile list, every profile field, and `current_profile` —
unchanged. -/
theorem rename_profile_taken_spec (c : Config) (old newName : String)
    (hOld : ∃ p ∈ c.profiles, p.name = old)
    (hNew : ∃ p ∈ c.profiles, p.name = newName) :
    c.rename_profile old newName = (RenameOutcome.failed, c) :=
  rename_profile_taken_helper c old newName
    (get_profile_ne_none_of_named hOld) (get_profile_ne_none_of_named hNew)

/-- C5 witness: renaming `"alpha"` to the already-taken `"beta"` leaves
the concrete config unchanged and reports failure. -/
theorem rename_profile_taken_witness :
    exConfig5.rename_profile "alpha" "beta" =
      (RenameOutcome.failed, exConfig5) :=
  rename_profile_taken_spec exConfig5 "alpha" "beta"
    ⟨exProfile "alpha" "/gd", by simp [exConfig5], rfl⟩
    ⟨exProfile "beta" "/gd2", by simp [exConfig5], rfl⟩

/-- C10: renaming a profile to its own current name takes the "name
already taken" failure branch (the duplicate check finds the profile being
renamed itself) and leaves the config unchanged; it never succeeds as a
no-op. -/
theorem rename_profile_self_spec (c : Config) (n : String)
    (h : ∃ p ∈ c.profiles, p.name = n) :
    c.rename_profile n n = (RenameOutcome.failed, c) :=
  rename_profile_taken_helper c n n
    (get_profile_ne_none_of_named h) (get_profile_ne_none_of_named h)

/-- C10 witness: renaming the only profile `"solo"` to `"solo"` fails and
changes nothing. -/
theorem rename_profile_self_witness :
    exConfig10.rename_profile "solo" "solo" =
      (RenameOutcome.failed, exConfig10) :=
  rename_profile_self_spec exConfig10 "solo"
    ⟨exProfile "solo" "/gd", by simp [exConfig10], rfl⟩

theorem stripExeSuffix_of_suffix {s : String} (h : ".exe".data <:+ s.data) :
    s = String.mk ((stripExeSuffix s).data ++ ".exe".data) := by
  obtain ⟨t, ht⟩ := h
  have hb : List.isSuffixOf ".exe".data s.data = true :=
    List.isSuffixOf_iff_suffix.mpr ⟨t, ht⟩
  have hlen : s.data.length - 4 = t.length := by
    rw [← ht, List.length_append]
    simp
  have htake : s.data.take (s.data.length - 4) = t := by
    rw [hlen, ← ht]
    exact List.take_left t _
  simp only [stripExeSuffix, hb, if_true]
  show s = String.mk (s.data.take (s.data.length - 4) ++ ".exe".data)
  rw [htake, ht]

theorem stripExeSuffix_of_not_suffix {s : String}
    (h : ¬ ".exe".data <:+ s.data) : stripExeSuffix s = s := by
  have hb : List.isSuffixOf ".exe".data s.data = false := by
    rw [Bool.eq_false_iff]
    intro hb
    exact h (List.isSuffixOf_iff_suffix.mp hb)
  simp [stripExeSuffix, hb]

theorem migrate_profiles_eq (o : OldConfig) :
    (o.migrate).profiles = (o.installations.getD []).map fun inst =>
      { name := stripExeSuffix inst.executable
        gd_path := inst.path
        other := [] } := rfl

theorem migrate_current_eq (o : OldConfig) :
    (o.migrate).current_profile =
      ((o.migrate).profiles.get?
        (o.working_installation.getD o.default_installation)).map
        fun p => p.name := rfl

/-- C2: `migrate` produces exactly one profile per legacy installation
(none when the list is absent), in the legacy order; each profile has the
name of the executable of its installation with one trailing ".exe" stripped when
present and unchanged otherwise, its install path is copied verbatim and
its flattened bag is empty; `default_developer` is copied verbatim,
`sdk_nightly` is false and the top-level bag is empty. -/
theorem migrate_profiles_spec (o : OldConfig) :
    (o.migrate).profiles.length = (o.installations.getD []).length ∧
    (∀ i : Nat, ∀ h : i < (o.installations.getD []).length,
      ∃ hh : i < (o.migrate).profiles.length,
        ((o.migrate).profiles.get ⟨i, hh⟩).gd_path =
          ((o.installations.getD []).get ⟨i, h⟩).path ∧
        ((o.migrate).profiles.get ⟨i, hh⟩).other = [] ∧
        (".exe".data <:+
            ((o.installations.getD []).get ⟨i, h⟩).executable.data →
          ((o.installations.getD []).get ⟨i, h⟩).executable =
            String.mk
              (((o.migrate).profiles.get ⟨i, hh⟩).name.data ++ ".exe".data)) ∧
        (¬ ".exe".data <:+
            ((o.installations.getD []).get ⟨i, h⟩).executable.data →
          ((o.migrate).profiles.get ⟨i, hh⟩).name =
            ((o.installations.getD []).get ⟨i, h⟩).executable)) ∧
    (o.migrate).default_developer = o.default_developer ∧
    (o.migrate).sdk_nightly = false ∧
    (o.migrate).other = [] := by
  refine ⟨by rw [migrate_profiles_eq]; exact List.length_map _ _, ?_, rfl, rfl, rfl⟩
  intro i h
  have hh : i < (o.migrate).profiles.length := by
    rw [migrate_profiles_eq, List.length_map]
    exact h
  refine ⟨hh, ?_⟩
  have hget : (o.migrate).profiles.get ⟨i, hh⟩ =
      { name := stripExeSuffix
          (((o.installations.getD []).get ⟨i, h⟩).executable)
        gd_path := ((o.installations.getD []).get ⟨i, h⟩).path
        other := [] } := by
    simp [migrate_profiles_eq, List.get_eq_getElem, List.getElem_map]
  rw [hget]
  refine ⟨rfl, rfl, ?_, ?_⟩
  · intro hsuf
    exact stripExeSuffix_of_suffix hsuf
  · intro hsuf
    exact stripExeSuffix_of_not_suffix hsuf

/-- C3: the migrated `current_profile` indexes the derived profile list at
`working_installation` when present (with no fallback to
`default_installation` when out of range) and at `default_installation`
otherwise; an out-of-range index yields `none` rather than an error. -/
theorem migrate_current_profile_spec (o : OldConfig) :
    (∀ w, o.working_installation = some w →
      ((∀ h : w < (o.migrate).profiles.length,
          (o.migrate).current_profile =
            some (((o.migrate).profiles.get ⟨w, h⟩).name)) ∧
        ((o.migrate).profiles.length ≤ w →
          (o.migrate).current_profile = none))) ∧
    (o.working_installation = none →
      ((∀ h : o.default_installation < (o.migrate).profiles.length,
          (o.migrate).current_profile =
            some (((o.migrate).profiles.get
              ⟨o.default_installation, h⟩).name)) ∧
        ((o.migrate).profiles.length ≤ o.default_installation →
          (o.migrate).current_profile = none))) := by
  constructor
  · intro w hw
    constructor
    · intro h
      rw [migrate_current_eq, hw]
      simp only [Option.getD_some]
      rw [List.get?_eq_get h]
      rfl
    · intro h
      rw [migrate_current_eq, hw]
      simp only [Option.getD_some]
      rw [List.get?_eq_none.mpr h]
      rfl
  · intro hw
    constructor
    · intro h
      rw [migrate_current_eq, hw]
      simp only [Option.getD_none]
      rw [List.get?_eq_get h]
      rfl
    · intro h
      rw [migrate_current_eq, hw]
      simp only [Option.getD_none]
      rw [List.get?_eq_none.mpr h]
      rfl

/-- C8: `try_sdk_path` never terminates the process (it is a total
function into `Except`) and checks in order: an unset `GEODE_SDK` yields
the error that mentions installing the SDK (whatever the filesystem
state); a set variable that is not an existing directory yields the
reinstallation error (whatever the `VERSION` check would say); an existing
directory without `VERSION` yields the other reinstallation error; and
otherwise it succeeds with the resolved path. -/
theorem try_sdk_path_spec :
    (∀ fs : FsState, try_sdk_path none fs = Except.error sdkNotSetMsg) ∧
    containsStr sdkNotSetMsg "install" = true ∧
    (∀ v : String, ∀ fs : FsState, fs.isDir v = false →
      try_sdk_path (some v) fs = Except.error sdkNotDirMsg) ∧
    containsStr sdkNotDirMsg "reinstall" = true ∧
    (∀ v : String, ∀ fs : FsState, fs.isDir v = true →
      fs.pathExists (joinPath v "VERSION") = false →
      try_sdk_path (some v) fs = Except.error sdkNoVersionMsg) ∧
    containsStr sdkNoVersionMsg "reinstall" = true ∧
    (∀ v : String, ∀ fs : FsState, fs.isDir v = true →
      fs.pathExists (joinPath v "VERSION") = true →
      try_sdk_path (some v) fs = Except.ok v) := by
  refine ⟨fun fs => rfl, by decide, ?_, by decide, ?_, by decide, ?_⟩
  · intro v fs h
    simp [try_sdk_path, h]
  · intro v fs h hv
    simp [try_sdk_path, h, hv]
  · intro v fs h hv
    simp [try_sdk_path, h, hv]

theorem asOptStr_optStrJson (x : Option String) :
    asOptStr (some (optStrJson x)) = some x := by
  cases x <;> rfl

theorem deserializeProfile_serializeProfile {p : Profile}
    (hp : profileWF p = true) :
    deserializeProfile (serializeProfile p) = some p := by
  have hall : ∀ kv ∈ p.other, (!(profileKeys.contains kv.1)) = true :=
    List.all_eq_true.mp hp
  have hser : serializeProfile p =
      Json.obj (("name", Json.str p.name) ::
        ("gd-path", Json.str p.gd_path) :: p.other) := rfl
  have hname : lookupField (("name", Json.str p.name) ::
      ("gd-path", Json.str p.gd_path) :: p.other) "name" =
      some (Json.str p.name) := rfl
  have hgd : lookupField (("name", Json.str p.name) ::
      ("gd-path", Json.str p.gd_path) :: p.other) "gd-path" =
      some (Json.str p.gd_path) := rfl
  have hfilter : (("name", Json.str p.name) ::
      ("gd-path", Json.str p.gd_path) :: p.other).filter
        (fun kv => !(profileKeys.contains kv.1)) = p.other := by
    have hstep : (("name", Json.str p.name) ::
        ("gd-path", Json.str p.gd_path) :: p.other).filter
          (fun kv => !(profileKeys.contains kv.1)) =
        p.other.filter (fun kv => !(profileKeys.contains kv.1)) := rfl
    rw [hstep]
    exact List.filter_eq_self.mpr hall
  rw [hser]
  simp only [deserializeProfile, hname, hgd, hfilter]
  rfl

theorem deserializeProfiles_map_serialize {l : List Profile}
    (h : l.all profileWF = true) :
    deserializeProfiles (l.map serializeProfile) = some l := by
  induction l with
  | nil => rfl
  | cons p l ih =>
    have hp : profileWF p = true := (List.all_eq_true.mp h) p (by simp)
    have hl : l.all profileWF = true := by
      rw [List.all_eq_true]
      intro q hq
      exact (List.all_eq_true.mp h) q (List.mem_cons_of_mem p hq)
    simp only [List.map_cons, deserializeProfiles,
      deserializeProfile_serializeProfile hp, ih hl]

theorem find?_filter_of_imp {α : Type} (l : List α) (p q : α → Bool)
    (h : ∀ x ∈ l, p x = true → q x = true) :
    (l.filter q).find? p = l.find? p := by
  induction l with
  | nil => rfl
  | cons a l ih =>
    have ih' := ih fun x hx => h x (List.mem_cons_of_mem a hx)
    by_cases hq : q a = true
    · rw [List.filter_cons, if_pos hq, List.find?_cons, List.find?_cons]
      cases hpa : p a
      · exact ih'
      · rfl
    · have hq' : q a = false := by simpa using hq
      have hp : p a = false := by
        cases hpa : p a with
        | false => rfl
        | true =>
          rw [h a (by simp) hpa] at hq'
          exact absurd hq' (by simp)
      rw [List.filter_cons, if_neg (by simp [hq']), List.find?_cons, hp]
      exact ih'

/-- Serialized config fields: the four recognized fields first, then the
flattened bag. -/
theorem serializeConfig_fields (c : Config) :
    objFields (serializeConfig c) =
      ("current-profile", optStrJson c.current_profile) ::
      ("profiles", Json.arr (c.profiles.map serializeProfile)) ::
      ("default-developer", optStrJson c.default_developer) ::
      ("sdk-nightly", Json.bool c.sdk_nightly) :: c.other := rfl

/-- C6: a save-then-load round trip returns the same config — equal in
all recognized fields and in the preserved bags — for every config whose
flattened bags avoid the recognized field names (as every loaded config
does); and in a load-then-save cycle every unrecognized field of the
original document, at top level and inside each profile document, survives
with its value intact. -/
theorem config_roundtrip_spec :
    (∀ c : Config, configWF c = true →
      deserializeConfig (serializeConfig c) = some c) ∧
    (∀ d : Json, ∀ c : Config, deserializeConfig d = some c →
      ∀ k : String, configKeys.contains k = false →
        lookupField (objFields (serializeConfig c)) k =
          lookupField (objFields d) k) ∧
    (∀ pd : Json, ∀ p : Profile, deserializeProfile pd = some p →
      ∀ k : String, profileKeys.contains k = false →
        lookupField (objFields (serializeProfile p)) k =
          lookupField (objFields pd) k) := by
  refine ⟨?_, ?_, ?_⟩
  · intro c hwf
    have hother : ∀ kv ∈ c.other, (!(configKeys.contains kv.1)) = true :=
      List.all_eq_true.mp (Bool.and_eq_true_iff.mp hwf).1
    have hprofs : c.profiles.all profileWF = true :=
      (Bool.and_eq_true_iff.mp hwf).2
    have hser : serializeConfig c = Json.obj (objFields (serializeConfig c)) := rfl
    have hcur : lookupField (objFields (serializeConfig c)) "current-profile" =
        some (optStrJson c.current_profile) := rfl
    have hpr : lookupField (objFields (serializeConfig c)) "profiles" =
        some (Json.arr (c.profiles.map serializeProfile)) := rfl
    have hdd : lookupField (objFields (serializeConfig c)) "default-developer" =
        some (optStrJson c.default_developer) := rfl
    have hsdk : lookupField (objFields (serializeConfig c)) "sdk-nightly" =
        some (Json.bool c.sdk_nightly) := rfl
    have hfilter : (objFields (serializeConfig c)).filter
        (fun kv => !(configKeys.contains kv.1)) = c.other := by
      have hstep : (objFields (serializeConfig c)).filter
          (fun kv => !(configKeys.contains kv.1)) =
          c.other.filter (fun kv => !(configKeys.contains kv.1)) := rfl
      rw [hstep]
      exact List.filter_eq_self.mpr hother
    rw [hser]
    simp only [deserializeConfig, hcur, asOptStr_optStrJson, hpr,
      deserializeProfiles_map_serialize hprofs, hdd, hsdk, hfilter]
  · intro d c h k hk
    cases d with
    | obj kvs =>
      have hkne : ∀ s ∈ configKeys, (s == k) = false := by
        intro s hs
        rw [beq_eq_false_iff_ne]
        intro he
        rw [he] at hs
        have hc : List.elem k configKeys = true := List.elem_iff.mpr hs
        rw [show configKeys.contains k = List.elem k configKeys from rfl, hc]
          at hk
        exact absurd hk (by simp)
      have hother : c.other =
          kvs.filter (fun kv => !(configKeys.contains kv.1)) := by
        simp only [deserializeConfig] at h
        repeat' split at h
        all_goals first
          | rw [← Option.some.inj h]
          | exact absurd h (by simp)
      have h1 := hkne "current-profile" (by simp [configKeys])
      have h2 := hkne "profiles" (by simp [configKeys])
      have h3 := hkne "default-developer" (by simp [configKeys])
      have h4 := hkne "sdk-nightly" (by simp [configKeys])
      rw [serializeConfig_fields]
      simp only [lookupField, List.find?_cons, h1, h2, h3, h4]
      rw [hother, objFields]
      rw [find?_filter_of_imp kvs (fun kv => kv.1 == k)
        (fun kv => !(configKeys.contains kv.1))]
      intro x hx hxk
      have hxk' : x.1 = k := beq_iff_eq.mp hxk
      rw [hxk', hk]
      rfl
    | null => exact absurd h (by simp [deserializeConfig])
    | bool b => exact absurd h (by simp [deserializeConfig])
    | num n => exact absurd h (by simp [deserializeConfig])
    | str s => exact absurd h (by simp [deserializeConfig])
    | arr xs => exact absurd h (by simp [deserializeConfig])
  · intro pd p h k hk
    cases pd with
    | obj kvs =>
      have hkne : ∀ s ∈ profileKeys, (s == k) = false := by
        intro s hs
        rw [beq_eq_false_iff_ne]
        intro he
        rw [he] at hs
        have hc : List.elem k profileKeys = true := List.elem_iff.mpr hs
        rw [show profileKeys.contains k = List.elem k profileKeys from rfl, hc]
          at hk
        exact absurd hk (by simp)
      have hother : p.other =
          kvs.filter (fun kv => !(profileKeys.contains kv.1)) := by
        simp only [deserializeProfile] at h
        repeat' split at h
        all_goals first
          | rw [← Option.some.inj h]
          | exact absurd h (by simp)
      have h1 := hkne "name" (by simp [profileKeys])
      have h2 := hkne "gd-path" (by simp [profileKeys])
      have hserp : objFields (serializeProfile p) =
          ("name", Json.str p.name) ::
          ("gd-path", Json.str p.gd_path) :: p.other := rfl
      rw [hserp]
      simp only [lookupField, List.find?_cons, h1, h2]
      rw [hother, objFields]
      rw [find?_filter_of_imp kvs (fun kv => kv.1 == k)
        (fun kv => !(profileKeys.contains kv.1))]
      intro x hx hxk
      have hxk' : x.1 = k := beq_iff_eq.mp hxk
      rw [hxk', hk]
      rfl
    | null => exact absurd h (by simp [deserializeProfile])
    | bool b => exact absurd h (by simp [deserializeProfile])
    | num n => exact absurd h (by simp [deserializeProfile])
    | str s => exact absurd h (by simp [deserializeProfile])
    | arr xs => exact absurd h (by simp [deserializeProfile])

end Geode
